import Mathlib

/-!
Verification of the saguaro-gatekeeper epoch/slot gate-bitmap program.

The account byte buffer is modelled as a length together with a byte
function (`Acct`).  Each instruction handler is translated from
`programs/saguaro-gatekeeper/src` into a pure Lean function over that
state; fallible paths return an explicit result type whose `crash`
constructor marks a Rust panic (out-of-bounds slice access).  Platform
collaborators (PDA derivation, rent funding, account ownership) enter as
boolean/abstract parameters, exactly at the interfaces the handlers
consume them.
-/

/-- Constants from `constants.rs`. -/
def SLOTS_PER_EPOCH : Nat := 432000

def MAX_SLOTS_PER_TRANSACTION : Nat := 100

def FULL_BITMAP_SIZE_BYTES : Nat := 54000

def INITIAL_BITMAP_SIZE_BYTES : Nat := 9000

def SANDWICH_VALIDATORS_ACCOUNT_BASE_SIZE : Nat := 8 + 2 + 4 + 1

def MAX_REALLOC_SIZE : Nat := 10240

/-- Error codes from `lib.rs` (`GatekeeperError`), restricted to the ones the
modelled handlers can produce. -/
inductive GatekeeperError where
  | SlotIsGated
  | EpochMismatch
  | InvalidPda
  | EpochNotFinished
  | TooManySlots
  | DuplicateSlots
  | SlotOutOfRange
  | MissingSandwichValidatorsAccount
  | InvalidSandwichValidatorsPDA
deriving DecidableEq, Repr

/-- An account data buffer: a length and the byte at each index.  Bytes at
indices `≥ len` are meaningless (reads there are modelled explicitly where
the Rust code guards them, and as `crash` where the Rust code would panic). -/
structure Acct where
  len : Nat
  byte : Nat → Nat

def emptyAcct : Acct := ⟨0, fun _ => 0⟩

/-- Outcome of a handler that mutates an account in place: `ok` with the final
buffer, `fail` with an error code and the buffer as the handler left it
(Rust mutates the borrowed account data in place, so an error return does not
undo writes), or `crash` for a Rust panic. -/
inductive HRes (σ : Type) where
  | ok : σ → HRes σ
  | fail : GatekeeperError → σ → HRes σ
  | crash : HRes σ
deriving DecidableEq

def HRes.isOk {σ : Type} : HRes σ → Bool
  | .ok _ => true
  | _ => false

def HRes.errOf {σ : Type} : HRes σ → Option GatekeeperError
  | .fail e _ => some e
  | _ => none

def HRes.stateD {σ : Type} : HRes σ → σ → σ
  | .ok s, _ => s
  | .fail _ s, _ => s
  | .crash, d => d

/-- Outcome of `set_sandwich_validators`: success also carries the emitted
event's `slot_count` field. -/
inductive SetRes where
  | ok : Acct → Nat → SetRes
  | fail : GatekeeperError → Acct → SetRes
  | crash : SetRes

def SetRes.isOk : SetRes → Bool
  | .ok _ _ => true
  | _ => false

def SetRes.stateD : SetRes → Acct → Acct
  | .ok a _, _ => a
  | .fail _ a, _ => a
  | .crash, d => d

def SetRes.cntD : SetRes → Nat → Nat
  | .ok _ n, _ => n
  | _, d => d

/-- Write one byte (callers perform the Rust bounds checks; the buffer length
is unchanged). -/
def wrByte (a : Acct) (i v : Nat) : Acct :=
  ⟨a.len, fun j => if j = i then v else a.byte j⟩

/-- Little-endian `u16::from_le_bytes([data[i], data[i+1]])`. -/
def rdU16 (a : Acct) (i : Nat) : Nat :=
  a.byte i + 256 * a.byte (i + 1)

/-- Little-endian `u32::from_le_bytes` of bytes `i .. i+3`. -/
def rdU32 (a : Acct) (i : Nat) : Nat :=
  a.byte i + 256 * a.byte (i + 1) + 65536 * a.byte (i + 2) +
    16777216 * a.byte (i + 3)

/-- Store a `u16` little-endian at bytes `i, i+1`. -/
def wrU16 (a : Acct) (i v : Nat) : Acct :=
  ⟨a.len, fun j =>
    if j = i then v % 256
    else if j = i + 1 then v / 256 % 256
    else a.byte j⟩

/-- Store a `u32` little-endian at bytes `i .. i+3`. -/
def wrU32 (a : Acct) (i v : Nat) : Acct :=
  ⟨a.len, fun j =>
    if j = i then v % 256
    else if j = i + 1 then v / 256 % 256
    else if j = i + 2 then v / 65536 % 256
    else if j = i + 3 then v / 16777216 % 256
    else a.byte j⟩

/-- Zero-fill the byte range `[s, e)` (`slice.fill(0)`). -/
def fillZero (a : Acct) (s e : Nat) : Acct :=
  ⟨a.len, fun j => if s ≤ j ∧ j < e then 0 else a.byte j⟩

/-- Resize the account to `n` bytes, zero-initializing grown space
(Solana account reallocation). -/
def resizeZero (a : Acct) (n : Nat) : Acct :=
  ⟨n, fun j => if j < a.len then a.byte j else 0⟩

/-- Write the 8-byte Anchor account discriminator at bytes `0 .. 7`
(`data[0..8].copy_from_slice(&DISCRIMINATOR)`); the discriminator value is
Anchor-generated and passed in abstractly. -/
def write_discriminator (disc : Nat → Nat) (a : Acct) : Acct :=
  ⟨a.len, fun j => if j < 8 then disc j else a.byte j⟩

/-- `check_duplicates_and_validate` from `update_sandwich_validator.rs`
(the loop in `set_sandwich_validators.rs` is the same with the epoch end as
bound): walk the slots, reporting a duplicate (BTreeSet insert failure)
before the range check of each element. -/
def check_dup_aux (slots seen : List Nat) (lo hi : Nat) : Option GatekeeperError :=
  match slots with
  | [] => none
  | s :: rest =>
    if s ∈ seen then some .DuplicateSlots
    else if s < lo ∨ s ≥ hi then some .SlotOutOfRange
    else check_dup_aux rest (s :: seen) lo hi

def check_duplicates_and_validate (slots : List Nat) (lo hi : Nat) :
    Option GatekeeperError :=
  if slots = [] then none else check_dup_aux slots [] lo hi

/-- `is_slot_gated_direct` from `update_sandwich_validator.rs`: reads the bit
for `slot` assuming the LargeBitmap layout (payload begins at byte 16). -/
def is_slot_gated_direct (a : Acct) (slot epoch_start bitmap_len : Nat) : Bool :=
  let slot_offset := slot - epoch_start
  let max_trackable_slots := bitmap_len * 8
  if slot_offset ≥ max_trackable_slots then false
  else
    let byte_pos := 16 + slot_offset / 8
    if byte_pos ≥ a.len then false
    else Nat.testBit (a.byte byte_pos) (slot_offset % 8)

/-- `set_slot_gated_direct` from `update_sandwich_validator.rs`: sets or
clears the bit for `slot` at payload offset 16; `none` is the
`SlotOutOfRange` error. -/
def set_slot_gated_direct (a : Acct) (slot epoch_start bitmap_len : Nat)
    (gated : Bool) : Option Acct :=
  let slot_offset := slot - epoch_start
  if slot_offset ≥ bitmap_len * 8 then none
  else
    let byte_pos := 16 + slot_offset / 8
    if byte_pos ≥ a.len then none
    else if gated then
      some (wrByte a byte_pos (a.byte byte_pos ||| (1 <<< (slot_offset % 8))))
    else
      some (wrByte a byte_pos (a.byte byte_pos &&& (255 ^^^ (1 <<< (slot_offset % 8)))))

/-- Step 1 of the mutation phase of `update_sandwich_validator`: clear each
already-gated slot of `remove_slots`, counting removals. -/
def remove_slots_loop (slots : List Nat) (a : Acct) (es bl removed : Nat) :
    Except (GatekeeperError × Acct) (Acct × Nat) :=
  match slots with
  | [] => .ok (a, removed)
  | s :: rest =>
    if is_slot_gated_direct a s es bl then
      match set_slot_gated_direct a s es bl false with
      | none => .error (.SlotOutOfRange, a)
      | some a2 => remove_slots_loop rest a2 es bl (removed + 1)
    else remove_slots_loop rest a es bl removed

/-- Step 2 of the mutation phase of `update_sandwich_validator`: gate each
slot of `new_slots`, counting additions. -/
def add_slots_loop (slots : List Nat) (a : Acct) (es bl added : Nat) :
    Except (GatekeeperError × Acct) (Acct × Nat) :=
  match slots with
  | [] => .ok (a, added)
  | s :: rest =>
    match set_slot_gated_direct a s es bl true with
    | none => .error (.SlotOutOfRange, a)
    | some a2 => add_slots_loop rest a2 es bl (added + 1)

/-- Handler of `update_sandwich_validator.rs`.  `ownerOk` abstracts
`*account.owner == *program_id`.  The returned state of a `fail` is the
account buffer as the handler left it. -/
def update_sandwich_validator (epoch_arg : Nat) (new_slots remove_slots : List Nat)
    (st : Acct) (ownerOk : Bool) : HRes Acct :=
  if new_slots.length > MAX_SLOTS_PER_TRANSACTION then .fail .TooManySlots st
  else if remove_slots.length > MAX_SLOTS_PER_TRANSACTION then .fail .TooManySlots st
  else if new_slots = [] ∧ remove_slots = [] then .ok st
  else if st.len = 0 ∨ ownerOk = false then .fail .InvalidPda st
  else if st.len < 10 then .crash
  else
    let epoch_start_slot := epoch_arg * SLOTS_PER_EPOCH
    if rdU16 st 8 ≠ epoch_arg then .fail .EpochMismatch st
    else
      let bitmap_len := st.len - 16
      if bitmap_len < INITIAL_BITMAP_SIZE_BYTES ∨ bitmap_len > FULL_BITMAP_SIZE_BYTES then
        .fail .InvalidPda st
      else
        let max_trackable_slot := epoch_start_slot + bitmap_len * 8
        match check_duplicates_and_validate remove_slots epoch_start_slot max_trackable_slot with
        | some e => .fail e st
        | none =>
          match check_duplicates_and_validate new_slots epoch_start_slot max_trackable_slot with
          | some e => .fail e st
          | none =>
            match remove_slots_loop remove_slots st epoch_start_slot bitmap_len 0 with
            | .error (e, a2) => .fail e a2
            | .ok (a1, _removed) =>
              if new_slots.any (fun s => is_slot_gated_direct a1 s epoch_start_slot bitmap_len) then
                .fail .DuplicateSlots a1
              else
                match add_slots_loop new_slots a1 epoch_start_slot bitmap_len 0 with
                | .error (e, a2) => .fail e a2
                | .ok (a2, _added) => .ok a2

/-- Handler of `validate_sandwich_validators.rs`.  `keyPresent` abstracts
`remaining_accounts.get(0)`, `keyMatches` abstracts the comparison of the
presented account key with the PDA re-derived from the authority and the
clock's current epoch, `ownerOk` the program-ownership check. -/
def validate_sandwich_validators (keyPresent keyMatches ownerOk : Bool)
    (clockEpoch clockSlot : Nat) (a : Acct) : HRes Unit :=
  let current_epoch := clockEpoch % 65536
  if keyPresent = false then .fail .MissingSandwichValidatorsAccount ()
  else if keyMatches = false then .fail .InvalidSandwichValidatorsPDA ()
  else if a.len = 0 ∨ ownerOk = false then .ok ()
  else
    let epoch_start := current_epoch * SLOTS_PER_EPOCH
    let epoch_end := epoch_start + SLOTS_PER_EPOCH
    if clockSlot < epoch_start ∨ clockSlot ≥ epoch_end then .ok ()
    else
      let slot_offset := clockSlot - epoch_start
      if slot_offset ≥ INITIAL_BITMAP_SIZE_BYTES * 8 then .ok ()
      else
        let byte_index := slot_offset / 8
        if a.len < 14 then .ok ()
        else
          let bitmap_len := rdU32 a 10
          if byte_index ≥ bitmap_len then .ok ()
          else
            let target_byte_pos := 14 + byte_index
            if a.len ≤ target_byte_pos then .ok ()
            else if Nat.testBit (a.byte target_byte_pos) (slot_offset % 8) then
              .fail .SlotIsGated ()
            else .ok ()

/-- Gate loop of `set_sandwich_validators.rs`: slots beyond the initial
bitmap capacity are silently skipped (`continue`). -/
def set_gate_loop (slots : List Nat) (a : Acct) (epoch_start : Nat) :
    Except (GatekeeperError × Acct) Acct :=
  match slots with
  | [] => .ok a
  | s :: rest =>
    let slot_offset := s - epoch_start
    if slot_offset ≥ INITIAL_BITMAP_SIZE_BYTES * 8 then set_gate_loop rest a epoch_start
    else
      let byte_pos := 14 + slot_offset / 8
      if byte_pos ≥ a.len then .error (.SlotOutOfRange, a)
      else
        set_gate_loop rest
          (wrByte a byte_pos (a.byte byte_pos ||| (1 <<< (slot_offset % 8)))) epoch_start

/-- Write phase of `set_sandwich_validators.rs`: discriminator, epoch, length
field, zero-filled initial payload, gate loop, then the bump byte at offset
`14 + 9000`.  Buffers too small for those writes panic in Rust (`crash`). -/
def set_core (disc : Nat → Nat) (bump epoch_arg : Nat) (slots : List Nat)
    (a : Acct) : SetRes :=
  if a.len < SANDWICH_VALIDATORS_ACCOUNT_BASE_SIZE + INITIAL_BITMAP_SIZE_BYTES then .crash
  else
    let epoch_start := epoch_arg * SLOTS_PER_EPOCH
    let a0 := write_discriminator disc a
    let a1 := wrU16 a0 8 epoch_arg
    let a2 := wrU32 a1 10 INITIAL_BITMAP_SIZE_BYTES
    let a3 := fillZero a2 14 (14 + INITIAL_BITMAP_SIZE_BYTES)
    match set_gate_loop slots a3 epoch_start with
    | .error (e, a4) => .fail e a4
    | .ok a4 =>
      .ok (wrByte a4 (14 + INITIAL_BITMAP_SIZE_BYTES) bump) (slots.length % 65536)

/-- Handler of `set_sandwich_validators.rs`.  An empty account is created by
the system program as `15 + 9000` zeroed bytes; an existing account is only
checked for program ownership and then overwritten. -/
def set_sandwich_validators (disc : Nat → Nat) (bump epoch_arg : Nat)
    (slots : List Nat) (st : Acct) (ownerOk : Bool) : SetRes :=
  if slots.length > MAX_SLOTS_PER_TRANSACTION then .fail .TooManySlots st
  else
    let epoch_start := epoch_arg * SLOTS_PER_EPOCH
    let epoch_end := epoch_start + SLOTS_PER_EPOCH
    match check_duplicates_and_validate slots epoch_start epoch_end with
    | some e => .fail e st
    | none =>
      if st.len = 0 then
        set_core disc bump epoch_arg slots
          ⟨SANDWICH_VALIDATORS_ACCOUNT_BASE_SIZE + INITIAL_BITMAP_SIZE_BYTES, fun _ => 0⟩
      else if ownerOk = false then .fail .InvalidPda st
      else set_core disc bump epoch_arg slots st

/-- Handler of `expand_sandwich_validators.rs`.  Rent funding is delegated to
the system program and assumed to succeed; `crash` marks the panicking
`fill` range when the stored length field exceeds the new final length. -/
def expand_sandwich_validators (st : Acct) (ownerOk : Bool) : HRes Acct :=
  if st.len = 0 ∨ ownerOk = false then .fail .InvalidPda st
  else
    let target_size := SANDWICH_VALIDATORS_ACCOUNT_BASE_SIZE + FULL_BITMAP_SIZE_BYTES
    let current_size := st.len
    let bytes_needed := target_size - current_size
    if bytes_needed = 0 then
      let current_bitmap_len := rdU32 st 10
      if current_bitmap_len ≠ FULL_BITMAP_SIZE_BYTES then
        .ok (wrU32 st 10 FULL_BITMAP_SIZE_BYTES)
      else .ok st
    else
      let expansion_size := min bytes_needed MAX_REALLOC_SIZE
      let new_size := current_size + expansion_size
      let a1 := resizeZero st new_size
      let current_bitmap_len := rdU32 a1 10
      let new_bitmap_len := new_size - (14 + 1)
      let final_bitmap_len := min new_bitmap_len FULL_BITMAP_SIZE_BYTES
      let a2 := wrU32 a1 10 final_bitmap_len
      let bitmap_start := 14 + current_bitmap_len
      let bitmap_end := 14 + final_bitmap_len
      if bitmap_end ≤ a2.len - 1 then
        if bitmap_end < bitmap_start then .crash
        else
          let a3 := fillZero a2 bitmap_start bitmap_end
          let bump_pos := new_size - 1
          if bump_pos < a3.len then .ok (wrByte a3 bump_pos (a3.byte (current_size - 1)))
          else .ok a3
      else .ok a2

/-- Handler of `close_sandwich_validator.rs` over the deserialized record's
epoch, the requested epoch and the clock's current epoch; on `ok` the Anchor
`close` constraint reclaims the account. -/
def close_sandwich_validator (storedEpoch epoch_to_close current_epoch : Nat) :
    HRes Unit :=
  if storedEpoch ≠ epoch_to_close then .fail .EpochMismatch ()
  else if epoch_to_close ≥ current_epoch then .fail .EpochNotFinished ()
  else .ok ()

/-- `SandwichValidators::is_slot_gated` from `lib.rs`, over the deserialized
record (epoch, length of the `slots` vector, its bytes). -/
def is_slot_gated (epoch slotsLen : Nat) (slotsByte : Nat → Nat) (slot : Nat) : Bool :=
  let epoch_start := epoch * SLOTS_PER_EPOCH
  let epoch_end := epoch_start + SLOTS_PER_EPOCH
  if slot < epoch_start ∨ slot ≥ epoch_end then false
  else
    let slot_offset := slot - epoch_start
    if slot_offset ≥ SLOTS_PER_EPOCH then false
    else
      let byte_index := slot_offset / 8
      if byte_index ≥ slotsLen then false
      else Nat.testBit (slotsByte byte_index) (slot_offset % 8)

/-- Read a serialized `SandwichValidators` account by its own layout
(epoch at bytes 8-9, vector length at 10-13, payload from 14) and apply
`is_slot_gated`. -/
def account_slot_gated (a : Acct) (slot : Nat) : Bool :=
  is_slot_gated (rdU16 a 8) (rdU32 a 10) (fun i => a.byte (14 + i)) slot

/-- One `expand_sandwich_validators` call viewed as a state transformer. -/
def expandStep (a : Acct) : Acct :=
  (expand_sandwich_validators a true).stateD a

/-- Account bytes after `set_sandwich_validators(epoch 0)` expanded once:
19255 bytes, length field 19240, everything else zero. -/
def acctExpanded1 : Acct :=
  ⟨19255, fun i => if i = 10 then 40 else if i = 11 then 75 else 0⟩

/-- A freshly created, never-expanded record for epoch 0: 9015 bytes with
length field 9000. -/
def acctInitial : Acct :=
  ⟨9015, fun i => if i = 10 then 40 else if i = 11 then 35 else 0⟩

/-- An expanded epoch-0 record (layout of `update_sandwich_validator`:
payload at byte 16) with slots 0 and 8 gated. -/
def acctTwoGated : Acct :=
  ⟨9016, fun i => if i = 16 then 1 else if i = 17 then 1 else 0⟩

/-- An existing epoch-3 record with payload byte 6 set to 255 and bump 9. -/
def acctExisting : Acct :=
  ⟨9015, fun i =>
    if i = 8 then 3 else if i = 10 then 40 else if i = 11 then 35
    else if i = 20 then 255 else if i = 9014 then 9 else 0⟩

/-- A fully expanded epoch-0 record (54015 bytes, length field 54000) whose
payload byte 9000 is 255: the bit of every slot offset in `[72000, 72008)`
is set. -/
def acctFullGatedHigh : Acct :=
  ⟨54015, fun i =>
    if i = 10 then 240 else if i = 11 then 210 else if i = 9014 then 255 else 0⟩

/-- A fully expanded epoch-0 record, all payload zero. -/
def acctFull : Acct :=
  ⟨54015, fun i => if i = 10 then 240 else if i = 11 then 210 else 0⟩

/-- An epoch-0 record whose first payload byte (byte 14) is 255. -/
def acctLowGated : Acct :=
  ⟨54015, fun i =>
    if i = 10 then 240 else if i = 11 then 210 else if i = 14 then 255 else 0⟩

example : rdU32 acctExpanded1 10 = 19240 := by decide
example : rdU32 acctInitial 10 = 9000 := by decide
example : rdU32 acctFull 10 = 54000 := by decide

theorem wrByte_len (a : Acct) (i v : Nat) : (wrByte a i v).len = a.len := rfl

theorem wrU16_len (a : Acct) (i v : Nat) : (wrU16 a i v).len = a.len := rfl

theorem wrU32_len (a : Acct) (i v : Nat) : (wrU32 a i v).len = a.len := rfl

theorem fillZero_len (a : Acct) (s e : Nat) : (fillZero a s e).len = a.len := rfl

theorem write_discriminator_len (disc : Nat → Nat) (a : Acct) :
    (write_discriminator disc a).len = a.len := rfl

theorem byte_wrByte_self (a : Acct) (i v : Nat) : (wrByte a i v).byte i = v := by
  simp [wrByte]

theorem byte_wrByte_ne (a : Acct) (i v j : Nat) (h : j ≠ i) :
    (wrByte a i v).byte j = a.byte j := by
  simp [wrByte, h]

theorem byte_fillZero_in (a : Acct) (s e j : Nat) (h1 : s ≤ j) (h2 : j < e) :
    (fillZero a s e).byte j = 0 := by
  simp [fillZero, h1, h2]

theorem byte_fillZero_out (a : Acct) (s e j : Nat) (h : ¬(s ≤ j ∧ j < e)) :
    (fillZero a s e).byte j = a.byte j := by
  simp only [fillZero]
  rw [if_neg h]

theorem byte_wrU16_out (a : Acct) (i v j : Nat) (h1 : j ≠ i) (h2 : j ≠ i + 1) :
    (wrU16 a i v).byte j = a.byte j := by
  simp [wrU16, h1, h2]

theorem byte_wrU32_out (a : Acct) (i v j : Nat) (h1 : j ≠ i) (h2 : j ≠ i + 1)
    (h3 : j ≠ i + 2) (h4 : j ≠ i + 3) : (wrU32 a i v).byte j = a.byte j := by
  simp [wrU32, h1, h2, h3, h4]

theorem byte_write_discriminator_lt (disc : Nat → Nat) (a : Acct) (j : Nat) (h : j < 8) :
    (write_discriminator disc a).byte j = disc j := by
  simp [write_discriminator, h]

theorem byte_write_discriminator_ge (disc : Nat → Nat) (a : Acct) (j : Nat) (h : 8 ≤ j) :
    (write_discriminator disc a).byte j = a.byte j := by
  simp only [write_discriminator]
  rw [if_neg (by omega)]

theorem rdU16_wrU16_same (a : Acct) (v : Nat) (h : v < 65536) :
    rdU16 (wrU16 a 8 v) 8 = v := by
  simp [rdU16, wrU16]
  omega

theorem rdU32_wrU32_same10 (a : Acct) (v : Nat) (h : v < 4294967296) :
    rdU32 (wrU32 a 10 v) 10 = v := by
  simp [rdU32, wrU32]
  omega

theorem rdU16_congr8 (a b : Acct) (h8 : b.byte 8 = a.byte 8) (h9 : b.byte 9 = a.byte 9) :
    rdU16 b 8 = rdU16 a 8 := by
  simp [rdU16, h8, h9]

theorem rdU32_congr10 (a b : Acct) (h10 : b.byte 10 = a.byte 10) (h11 : b.byte 11 = a.byte 11)
    (h12 : b.byte 12 = a.byte 12) (h13 : b.byte 13 = a.byte 13) :
    rdU32 b 10 = rdU32 a 10 := by
  simp [rdU32]
  omega

theorem check_dup_aux_sound (slots : List Nat) : ∀ (seen : List Nat) (lo hi : Nat),
    check_dup_aux slots seen lo hi = none → ∀ s ∈ slots, lo ≤ s ∧ s < hi := by
  induction slots with
  | nil => intro seen lo hi _ s hs; simp at hs
  | cons t rest ih =>
    intro seen lo hi h s hs
    rw [check_dup_aux] at h
    by_cases hmem : t ∈ seen
    · rw [if_pos hmem] at h; simp at h
    · rw [if_neg hmem] at h
      by_cases hrange : t < lo ∨ t ≥ hi
      · rw [if_pos hrange] at h; simp at h
      · rw [if_neg hrange] at h
        rcases List.mem_cons.mp hs with rfl | hs2
        · omega
        · exact ih (t :: seen) lo hi h s hs2

theorem check_duplicates_sound (slots : List Nat) (lo hi : Nat)
    (h : check_duplicates_and_validate slots lo hi = none) :
    ∀ s ∈ slots, lo ≤ s ∧ s < hi := by
  rw [check_duplicates_and_validate] at h
  by_cases he : slots = []
  · subst he; intro s hs; simp at hs
  · rw [if_neg he] at h
    exact check_dup_aux_sound slots [] lo hi h

theorem check_dup_aux_complete (slots : List Nat) : ∀ (seen : List Nat) (lo hi : Nat),
    slots.Nodup → (∀ s ∈ slots, lo ≤ s ∧ s < hi) → (∀ s ∈ slots, s ∉ seen) →
    check_dup_aux slots seen lo hi = none := by
  induction slots with
  | nil => intro seen lo hi _ _ _; rfl
  | cons t rest ih =>
    intro seen lo hi hnd hb hseen
    rw [check_dup_aux]
    rw [if_neg (hseen t (List.mem_cons_self t rest))]
    rw [if_neg (by have := hb t (List.mem_cons_self t rest); omega)]
    refine ih (t :: seen) lo hi (List.Nodup.of_cons hnd)
      (fun s hs => hb s (List.mem_cons_of_mem t hs)) ?_
    intro s hs
    have hne : s ≠ t := by
      intro heq
      subst heq
      exact (List.nodup_cons.mp hnd).1 hs
    simp only [List.mem_cons]
    push_neg
    exact ⟨hne, hseen s (List.mem_cons_of_mem t hs)⟩

theorem check_duplicates_complete (slots : List Nat) (lo hi : Nat)
    (h1 : slots.Nodup) (h2 : ∀ s ∈ slots, lo ≤ s ∧ s < hi) :
    check_duplicates_and_validate slots lo hi = none := by
  rw [check_duplicates_and_validate]
  by_cases he : slots = []
  · rw [if_pos he]
  · rw [if_neg he]
    exact check_dup_aux_complete slots [] lo hi h1 h2 (by intro s _; simp)

theorem set_slot_gated_direct_some (a : Acct) (slot es bl : Nat) (g : Bool)
    (h1 : es ≤ slot) (h2 : slot < es + bl * 8) (h3 : 16 + bl ≤ a.len) :
    ∃ a2, set_slot_gated_direct a slot es bl g = some a2 ∧ a2.len = a.len ∧
      ∀ j, j ≠ 16 + (slot - es) / 8 → a2.byte j = a.byte j := by
  rw [set_slot_gated_direct]
  simp only []
  rw [if_neg (by omega)]
  rw [if_neg (by omega)]
  cases g with
  | true =>
    exact ⟨_, rfl, rfl, fun j hj => byte_wrByte_ne _ _ _ _ hj⟩
  | false =>
    exact ⟨_, rfl, rfl, fun j hj => byte_wrByte_ne _ _ _ _ hj⟩

theorem remove_slots_loop_ok (slots : List Nat) : ∀ (a : Acct) (es bl r : Nat),
    (∀ s ∈ slots, es ≤ s ∧ s < es + bl * 8) → 16 + bl ≤ a.len →
    ∃ a2 n, remove_slots_loop slots a es bl r = .ok (a2, n) ∧ a2.len = a.len ∧
      ∀ j, a2.byte j ≠ a.byte j → ∃ s, s ∈ slots ∧ j = 16 + (s - es) / 8 := by
  induction slots with
  | nil =>
    intro a es bl r _ _
    exact ⟨a, r, rfl, rfl, fun j hj => absurd rfl hj⟩
  | cons t rest ih =>
    intro a es bl r hb hl
    have hbt := hb t (List.mem_cons_self t rest)
    have hbrest : ∀ s ∈ rest, es ≤ s ∧ s < es + bl * 8 :=
      fun s hs => hb s (List.mem_cons_of_mem t hs)
    rw [remove_slots_loop]
    by_cases hg : is_slot_gated_direct a t es bl
    · rw [if_pos hg]
      obtain ⟨a2, hset, hlen2, hdiff2⟩ :=
        set_slot_gated_direct_some a t es bl false hbt.1 hbt.2 hl
      rw [hset]
      obtain ⟨a3, n, hloop, hlen3, hdiff3⟩ := ih a2 es bl (r + 1) hbrest (by omega)
      refine ⟨a3, n, hloop, by omega, ?_⟩
      intro j hj
      by_cases hj2 : a3.byte j = a2.byte j
      · have : a2.byte j ≠ a.byte j := by rw [← hj2]; exact hj
        by_cases hjt : j = 16 + (t - es) / 8
        · exact ⟨t, List.mem_cons_self t rest, hjt⟩
        · exact absurd (hdiff2 j hjt) this
      · obtain ⟨s, hs, hjs⟩ := hdiff3 j hj2
        exact ⟨s, List.mem_cons_of_mem t hs, hjs⟩
    · rw [if_neg hg]
      obtain ⟨a3, n, hloop, hlen3, hdiff3⟩ := ih a es bl r hbrest hl
      refine ⟨a3, n, hloop, hlen3, ?_⟩
      intro j hj
      obtain ⟨s, hs, hjs⟩ := hdiff3 j hj
      exact ⟨s, List.mem_cons_of_mem t hs, hjs⟩

theorem add_slots_loop_ok (slots : List Nat) : ∀ (a : Acct) (es bl n : Nat),
    (∀ s ∈ slots, es ≤ s ∧ s < es + bl * 8) → 16 + bl ≤ a.len →
    ∃ a2 m, add_slots_loop slots a es bl n = .ok (a2, m) := by
  induction slots with
  | nil => intro a es bl n _ _; exact ⟨a, n, rfl⟩
  | cons t rest ih =>
    intro a es bl n hb hl
    have hbt := hb t (List.mem_cons_self t rest)
    obtain ⟨a2, hset, hlen2, _⟩ :=
      set_slot_gated_direct_some a t es bl true hbt.1 hbt.2 hl
    rw [add_slots_loop, hset]
    exact ih a2 es bl (n + 1) (fun s hs => hb s (List.mem_cons_of_mem t hs)) (by omega)

theorem or_shift_testBit_self (x k : Nat) :
    Nat.testBit (x ||| (1 <<< k)) k = true := by
  rw [Nat.testBit_or, Nat.shiftLeft_eq, one_mul, Nat.testBit_two_pow_self, Bool.or_true]

theorem or_shift_testBit_mono (x m j : Nat) (h : Nat.testBit x j = true) :
    Nat.testBit (x ||| m) j = true := by
  rw [Nat.testBit_or, h, Bool.true_or]

theorem set_gate_loop_ok (slots : List Nat) : ∀ (a : Acct) (es : Nat), a.len = 9015 →
    ∃ r, set_gate_loop slots a es = .ok r ∧ r.len = 9015 ∧
      (∀ j, j < 14 ∨ 9014 ≤ j → r.byte j = a.byte j) ∧
      (∀ j b, Nat.testBit (a.byte j) b = true → Nat.testBit (r.byte j) b = true) ∧
      (∀ s, s ∈ slots → es ≤ s → s - es < 72000 →
        Nat.testBit (r.byte (14 + (s - es) / 8)) ((s - es) % 8) = true) := by
  induction slots with
  | nil =>
    intro a es hl
    refine ⟨a, rfl, hl, fun _ _ => rfl, fun _ _ h => h, ?_⟩
    intro s hs; simp at hs
  | cons t rest ih =>
    intro a es hl
    rw [set_gate_loop]
    simp only []
    by_cases hskip : t - es ≥ INITIAL_BITMAP_SIZE_BYTES * 8
    · rw [if_pos hskip]
      obtain ⟨r, hloop, hlen, hpres, hmono, hsets⟩ := ih a es hl
      refine ⟨r, hloop, hlen, hpres, hmono, ?_⟩
      intro s hs hes hoff
      rcases List.mem_cons.mp hs with rfl | hs2
      · exact absurd hskip (by simp only [INITIAL_BITMAP_SIZE_BYTES]; omega)
      · exact hsets s hs2 hes hoff
    · rw [if_neg hskip]
      have hbp : ¬ 14 + (t - es) / 8 ≥ a.len := by
        simp only [INITIAL_BITMAP_SIZE_BYTES] at hskip
        omega
      rw [if_neg hbp]
      set bp := 14 + (t - es) / 8 with hbpdef
      set a2 := wrByte a bp (a.byte bp ||| (1 <<< ((t - es) % 8))) with ha2
      obtain ⟨r, hloop, hlen, hpres, hmono, hsets⟩ := ih a2 es (by rw [ha2, wrByte_len]; exact hl)
      refine ⟨r, hloop, hlen, ?_, ?_, ?_⟩
      · intro j hj
        rw [hpres j hj, ha2, byte_wrByte_ne]
        simp only [INITIAL_BITMAP_SIZE_BYTES] at hskip
        omega
      · intro j b hb
        refine hmono j b ?_
        by_cases hjbp : j = bp
        · subst hjbp
          rw [ha2, byte_wrByte_self]
          exact or_shift_testBit_mono _ _ _ hb
        · rw [ha2, byte_wrByte_ne _ _ _ _ hjbp]
          exact hb
      · intro s hs hes hoff
        rcases List.mem_cons.mp hs with rfl | hs2
        · refine hmono bp ((s - es) % 8) ?_
          rw [ha2, byte_wrByte_self]
          exact or_shift_testBit_self _ _
        · exact hsets s hs2 hes hoff

theorem set_core_empty_props (disc : Nat → Nat) (bump e : Nat) (a : Acct)
    (hl : 9015 ≤ a.len) (he : e < 65536) :
    ∃ r, set_core disc bump e [] a = .ok r 0 ∧ r.len = a.len ∧
      rdU16 r 8 = e ∧ rdU32 r 10 = 9000 ∧ (∀ j, 14 ≤ j → j < 9014 → r.byte j = 0) ∧
      r.byte 9014 = bump ∧ (∀ j, j < 8 → r.byte j = disc j) := by
  refine ⟨wrByte (fillZero (wrU32 (wrU16 (write_discriminator disc a) 8 e) 10
      INITIAL_BITMAP_SIZE_BYTES) 14 (14 + INITIAL_BITMAP_SIZE_BYTES))
      (14 + INITIAL_BITMAP_SIZE_BYTES) bump, ?_, ?_, ?_, ?_, ?_, ?_, ?_⟩
  · simp only [set_core]
    rw [if_neg (by
      simp only [SANDWICH_VALIDATORS_ACCOUNT_BASE_SIZE, INITIAL_BITMAP_SIZE_BYTES]
      omega)]
    rfl
  · rw [wrByte_len, fillZero_len, wrU32_len, wrU16_len, write_discriminator_len]
  · have h8 : (wrByte (fillZero (wrU32 (wrU16 (write_discriminator disc a) 8 e) 10
        INITIAL_BITMAP_SIZE_BYTES) 14 (14 + INITIAL_BITMAP_SIZE_BYTES))
        (14 + INITIAL_BITMAP_SIZE_BYTES) bump).byte 8 =
        (wrU16 (write_discriminator disc a) 8 e).byte 8 := by
      rw [byte_wrByte_ne _ _ _ _ (by simp only [INITIAL_BITMAP_SIZE_BYTES]; omega)]
      rw [byte_fillZero_out _ _ _ _ (by omega)]
      rw [byte_wrU32_out _ _ _ _ (by omega) (by omega) (by omega) (by omega)]
    have h9 : (wrByte (fillZero (wrU32 (wrU16 (write_discriminator disc a) 8 e) 10
        INITIAL_BITMAP_SIZE_BYTES) 14 (14 + INITIAL_BITMAP_SIZE_BYTES))
        (14 + INITIAL_BITMAP_SIZE_BYTES) bump).byte 9 =
        (wrU16 (write_discriminator disc a) 8 e).byte 9 := by
      rw [byte_wrByte_ne _ _ _ _ (by simp only [INITIAL_BITMAP_SIZE_BYTES]; omega)]
      rw [byte_fillZero_out _ _ _ _ (by omega)]
      rw [byte_wrU32_out _ _ _ _ (by omega) (by omega) (by omega) (by omega)]
    rw [rdU16_congr8 _ _ h8 h9, rdU16_wrU16_same _ _ he]
  · have key : ∀ j, 10 ≤ j → j ≤ 13 →
        (wrByte (fillZero (wrU32 (wrU16 (write_discriminator disc a) 8 e) 10
          INITIAL_BITMAP_SIZE_BYTES) 14 (14 + INITIAL_BITMAP_SIZE_BYTES))
          (14 + INITIAL_BITMAP_SIZE_BYTES) bump).byte j =
        (wrU32 (wrU16 (write_discriminator disc a) 8 e) 10 INITIAL_BITMAP_SIZE_BYTES).byte j := by
      intro j hj1 hj2
      rw [byte_wrByte_ne _ _ _ _ (by simp only [INITIAL_BITMAP_SIZE_BYTES]; omega)]
      rw [byte_fillZero_out _ _ _ _ (by omega)]
    rw [rdU32_congr10 _ _ (key 10 (by omega) (by omega)) (key 11 (by omega) (by omega))
      (key 12 (by omega) (by omega)) (key 13 (by omega) (by omega))]
    rw [rdU32_wrU32_same10 _ _ (by simp only [INITIAL_BITMAP_SIZE_BYTES]; omega)]
    rfl
  · intro j hj1 hj2
    rw [byte_wrByte_ne _ _ _ _ (by simp only [INITIAL_BITMAP_SIZE_BYTES]; omega)]
    exact byte_fillZero_in _ _ _ _ hj1 (by simp only [INITIAL_BITMAP_SIZE_BYTES]; omega)
  · have : (14 + INITIAL_BITMAP_SIZE_BYTES) = 9014 := by
      simp only [INITIAL_BITMAP_SIZE_BYTES]
    rw [this, byte_wrByte_self]
  · intro j hj
    rw [byte_wrByte_ne _ _ _ _ (by simp only [INITIAL_BITMAP_SIZE_BYTES]; omega)]
    rw [byte_fillZero_out _ _ _ _ (by omega)]
    rw [byte_wrU32_out _ _ _ _ (by omega) (by omega) (by omega) (by omega)]
    rw [byte_wrU16_out _ _ _ _ (by omega) (by omega)]
    exact byte_write_discriminator_lt _ _ _ hj

theorem set_core_ok_props (disc : Nat → Nat) (bump e : Nat) (slots : List Nat) (a : Acct)
    (hl : a.len = 9015) (he : e < 65536) :
    ∃ r, set_core disc bump e slots a = .ok r (slots.length % 65536) ∧ r.len = 9015 ∧
      rdU16 r 8 = e ∧ rdU32 r 10 = 9000 ∧
      (∀ s, s ∈ slots → e * SLOTS_PER_EPOCH ≤ s → s - e * SLOTS_PER_EPOCH < 72000 →
        Nat.testBit (r.byte (14 + (s - e * SLOTS_PER_EPOCH) / 8))
          ((s - e * SLOTS_PER_EPOCH) % 8) = true) := by
  have h3len : (fillZero (wrU32 (wrU16 (write_discriminator disc a) 8 e) 10
      INITIAL_BITMAP_SIZE_BYTES) 14 (14 + INITIAL_BITMAP_SIZE_BYTES)).len = 9015 := by
    rw [fillZero_len, wrU32_len, wrU16_len, write_discriminator_len, hl]
  obtain ⟨r, hloop, hlen, hpres, hmono, hsets⟩ :=
    set_gate_loop_ok slots _ (e * SLOTS_PER_EPOCH) h3len
  refine ⟨wrByte r (14 + INITIAL_BITMAP_SIZE_BYTES) bump, ?_, ?_, ?_, ?_, ?_⟩
  · simp only [set_core]
    rw [if_neg (by
      simp only [SANDWICH_VALIDATORS_ACCOUNT_BASE_SIZE, INITIAL_BITMAP_SIZE_BYTES]
      omega)]
    simp only [hloop]
  · rw [wrByte_len, hlen]
  · have h8 : (wrByte r (14 + INITIAL_BITMAP_SIZE_BYTES) bump).byte 8 =
        (wrU16 (write_discriminator disc a) 8 e).byte 8 := by
      rw [byte_wrByte_ne _ _ _ _ (by simp only [INITIAL_BITMAP_SIZE_BYTES]; omega)]
      rw [hpres 8 (Or.inl (by omega))]
      rw [byte_fillZero_out _ _ _ _ (by omega)]
      rw [byte_wrU32_out _ _ _ _ (by omega) (by omega) (by omega) (by omega)]
    have h9 : (wrByte r (14 + INITIAL_BITMAP_SIZE_BYTES) bump).byte 9 =
        (wrU16 (write_discriminator disc a) 8 e).byte 9 := by
      rw [byte_wrByte_ne _ _ _ _ (by simp only [INITIAL_BITMAP_SIZE_BYTES]; omega)]
      rw [hpres 9 (Or.inl (by omega))]
      rw [byte_fillZero_out _ _ _ _ (by omega)]
      rw [byte_wrU32_out _ _ _ _ (by omega) (by omega) (by omega) (by omega)]
    rw [rdU16_congr8 _ _ h8 h9, rdU16_wrU16_same _ _ he]
  · have key : ∀ j, 10 ≤ j → j ≤ 13 →
        (wrByte r (14 + INITIAL_BITMAP_SIZE_BYTES) bump).byte j =
        (wrU32 (wrU16 (write_discriminator disc a) 8 e) 10 INITIAL_BITMAP_SIZE_BYTES).byte j := by
      intro j hj1 hj2
      rw [byte_wrByte_ne _ _ _ _ (by simp only [INITIAL_BITMAP_SIZE_BYTES]; omega)]
      rw [hpres j (Or.inl (by omega))]
      rw [byte_fillZero_out _ _ _ _ (by omega)]
    rw [rdU32_congr10 _ _ (key 10 (by omega) (by omega)) (key 11 (by omega) (by omega))
      (key 12 (by omega) (by omega)) (key 13 (by omega) (by omega))]
    rw [rdU32_wrU32_same10 _ _ (by simp only [INITIAL_BITMAP_SIZE_BYTES]; omega)]
    rfl
  · intro s hs hes hoff
    rw [byte_wrByte_ne _ _ _ _ (by simp only [INITIAL_BITMAP_SIZE_BYTES]; omega)]
    exact hsets s hs hes hoff

/-- Claim C1 (code bug): gating a slot through `update_sandwich_validator` and
then querying the very same account bytes with `validate_sandwich_validators`
at that slot does not report it as gated.  On an epoch-0 account expanded once
(19255 bytes, length field 19240), gating slot 0 succeeds and writes the bit
at byte 16 (the handler assumes the LargeBitmap header of 16 bytes), but the
fast-path query reads byte 14 (the SandwichValidators header of 14 bytes) and
returns the "not gated" success outcome. -/
theorem C1_update_validate_layout_mismatch :
    (update_sandwich_validator 0 [0] [] acctExpanded1 true).isOk = true ∧
    ((update_sandwich_validator 0 [0] [] acctExpanded1 true).stateD acctExpanded1).byte 16 = 1 ∧
    ((update_sandwich_validator 0 [0] [] acctExpanded1 true).stateD acctExpanded1).byte 14 = 0 ∧
    validate_sandwich_validators true true true 0 0
      ((update_sandwich_validator 0 [0] [] acctExpanded1 true).stateD acctExpanded1) = .ok () := by
  decide

/-- Claim C2, counterexample: on a key mismatch the fast-path validator does
not return the "not gated" success outcome; it returns the
`InvalidSandwichValidatorsPDA` error, even though the account's bit for the
current slot is set (with a matching key the same input yields `SlotIsGated`). -/
theorem C2_cex_mismatch_not_ok :
    validate_sandwich_validators true false true 0 0 acctLowGated ≠ .ok () ∧
    validate_sandwich_validators true false true 0 0 acctLowGated
      = .fail .InvalidSandwichValidatorsPDA () ∧
    validate_sandwich_validators true true true 0 0 acctLowGated = .fail .SlotIsGated () := by
  decide

/-- Claim C2, amended: whenever the presented account key differs from the
re-derived PDA, `validate_sandwich_validators` returns the
`InvalidSandwichValidatorsPDA` error, regardless of the account's contents,
its owner, and the clock. -/
theorem C2_mismatch_always_errors (ownerOk : Bool) (clockEpoch clockSlot : Nat) (a : Acct) :
    validate_sandwich_validators true false ownerOk clockEpoch clockSlot a
      = .fail .InvalidSandwichValidatorsPDA () := rfl

/-- Claim C6, counterexample: with the account at its initial 9015 bytes
(payload 9000), the first `expand_sandwich_validators` call succeeds and
yields a stored payload length of 19240 bytes, not the 19000 stated by the
claim. -/
theorem C6_cex_first_expand_yields_19240 :
    (expand_sandwich_validators acctInitial true).isOk = true ∧
    rdU32 (expandStep acctInitial) 10 = 19240 ∧
    rdU32 (expandStep acctInitial) 10 ≠ 19000 := by
  decide

/-- Claim C6, amended: starting from the initial 9015-byte account (payload
9000), the first call yields a 19255-byte account with payload length field
19240; four calls leave the account at 49975 bytes (short of full coverage),
five calls reach the full 54015 bytes with payload length 54000, and a sixth
call is a no-op. -/
theorem C6_five_calls_reach_full :
    (expandStep acctInitial).len = 19255 ∧
    rdU32 (expandStep acctInitial) 10 = 19240 ∧
    (expandStep (expandStep (expandStep (expandStep acctInitial)))).len = 49975 ∧
    (expandStep (expandStep (expandStep (expandStep (expandStep acctInitial))))).len = 54015 ∧
    rdU32 (expandStep (expandStep (expandStep (expandStep (expandStep acctInitial))))) 10 = 54000 ∧
    (expandStep (expandStep (expandStep (expandStep (expandStep
      (expandStep acctInitial)))))).len = 54015 := by
  decide

/-- Claim C8, counterexample: with the record's stored epoch 5, requested
epoch 3 and current epoch 4, the record's epoch is greater than or equal to
the current epoch, yet the close handler fails with `EpochMismatch`, not with
the still-active error `EpochNotFinished`. -/
theorem C8_cex_mismatch_not_stillactive :
    close_sandwich_validator 5 3 4 = .fail .EpochMismatch () ∧
    close_sandwich_validator 5 3 4 ≠ .fail .EpochNotFinished () := by
  decide

/-- Claim C8, amended: when the requested epoch differs from the record's
stored epoch the close handler fails with `EpochMismatch` regardless of the
clock; when they agree it fails with `EpochNotFinished` exactly if the
current epoch is not strictly greater, and succeeds (the Anchor close
constraint then reclaims the record) exactly if the record's epoch is
strictly past. -/
theorem C8_close_epoch_gate (stored req cur : Nat) :
    (stored ≠ req → close_sandwich_validator stored req cur = .fail .EpochMismatch ()) ∧
    (stored = req → cur ≤ req → close_sandwich_validator stored req cur
      = .fail .EpochNotFinished ()) ∧
    (stored = req → req < cur → close_sandwich_validator stored req cur = .ok ()) := by
  refine ⟨?_, ?_, ?_⟩
  · intro h
    rw [close_sandwich_validator, if_pos h]
  · intro h1 h2
    rw [close_sandwich_validator, if_neg (by omega), if_pos (by omega)]
  · intro h1 h2
    rw [close_sandwich_validator, if_neg (by omega), if_neg (by omega)]

/-- Claim C8, witness: the amended close behaviour at concrete epochs
(7,6,9), (7,7,7) and (7,7,9). -/
theorem C8_close_epoch_gate_witness :
    close_sandwich_validator 7 6 9 = .fail .EpochMismatch () ∧
    close_sandwich_validator 7 7 7 = .fail .EpochNotFinished () ∧
    close_sandwich_validator 7 7 9 = .ok () :=
  ⟨(C8_close_epoch_gate 7 6 9).1 (by decide),
   (C8_close_epoch_gate 7 7 7).2.1 rfl (by decide),
   (C8_close_epoch_gate 7 7 9).2.2 rfl (by decide)⟩

/-- Claim C5, counterexample: calling `set_sandwich_validators` while a record
already exists at the derived handle (a 9015-byte program-owned account with
payload byte 20 equal to 255) does not fail: it succeeds and zero-fills the
payload, clearing the previously gated bits. -/
theorem C5_cex_existing_record_overwritten :
    (set_sandwich_validators (fun _ => 1) 7 5 [] acctExisting true).isOk = true ∧
    ((set_sandwich_validators (fun _ => 1) 7 5 [] acctExisting true).stateD acctExisting).byte 20
      = 0 ∧
    acctExisting.byte 20 = 255 := by
  decide

/-- Claim C4 (confirmed): whenever the current slot's offset within the
current epoch is at least `INITIAL_BITMAP_SIZE_BYTES * 8 = 72000`, the
fast-path validator returns the success ("not gated") outcome for every
account state — the bitmap byte is never consulted, even on a fully expanded
account whose corresponding bit is set. -/
theorem C4_beyond_initial_capacity_not_gated (ownerOk : Bool)
    (clockEpoch clockSlot : Nat) (a : Acct)
    (h1 : clockEpoch % 65536 * SLOTS_PER_EPOCH + INITIAL_BITMAP_SIZE_BYTES * 8 ≤ clockSlot)
    (h2 : clockSlot < clockEpoch % 65536 * SLOTS_PER_EPOCH + SLOTS_PER_EPOCH) :
    validate_sandwich_validators true true ownerOk clockEpoch clockSlot a = .ok () := by
  simp only [validate_sandwich_validators]
  rw [if_neg (by simp), if_neg (by simp)]
  by_cases hempty : a.len = 0 ∨ ownerOk = false
  · rw [if_pos hempty]
  · rw [if_neg hempty]
    rw [if_neg (by omega)]
    rw [if_pos (by simp only [INITIAL_BITMAP_SIZE_BYTES] at h1 ⊢; omega)]

/-- Claim C4, witness: at epoch 0, slot 72000, on a fully expanded account
whose byte for that slot is 255 (`acctFullGatedHigh`), the validator still
answers "not gated". -/
theorem C4_beyond_initial_capacity_witness :
    validate_sandwich_validators true true true 0 72000 acctFullGatedHigh = .ok () :=
  C4_beyond_initial_capacity_not_gated true 0 72000 acctFullGatedHigh (by decide) (by decide)

/-- Claim C5, amended: when a program-owned record of at least 9015 bytes
already exists at the derived handle, `set_sandwich_validators` succeeds and
reinitializes it (header epoch, payload length field 9000, zero-filled
payload, bump byte) instead of failing; when no record exists, it allocates
the 9015-byte initial record, writes the header and zero-fills the entire
initial payload. -/
theorem C5_create_or_overwrite (disc : Nat → Nat) (bump e : Nat) (st : Acct)
    (he : e < 65536) :
    (9015 ≤ st.len →
      ∃ a, set_sandwich_validators disc bump e [] st true = .ok a 0 ∧ a.len = st.len ∧
        rdU16 a 8 = e ∧ rdU32 a 10 = 9000 ∧ (∀ j, 14 ≤ j → j < 9014 → a.byte j = 0) ∧
        a.byte 9014 = bump) ∧
    (st.len = 0 →
      ∃ a, set_sandwich_validators disc bump e [] st true = .ok a 0 ∧ a.len = 9015 ∧
        rdU16 a 8 = e ∧ rdU32 a 10 = 9000 ∧ (∀ j, 14 ≤ j → j < 9014 → a.byte j = 0) ∧
        a.byte 9014 = bump ∧ (∀ j, j < 8 → a.byte j = disc j)) := by
  constructor
  · intro hl
    obtain ⟨r, heq, hrlen, h16, h32, hzero, hbump, _⟩ :=
      set_core_empty_props disc bump e st hl he
    refine ⟨r, ?_, hrlen, h16, h32, hzero, hbump⟩
    simp only [set_sandwich_validators]
    rw [if_neg (by decide)]
    rw [show check_duplicates_and_validate [] (e * SLOTS_PER_EPOCH)
      (e * SLOTS_PER_EPOCH + SLOTS_PER_EPOCH) = none from rfl]
    rw [if_neg (by omega)]
    rw [if_neg (by simp)]
    exact heq
  · intro hl
    obtain ⟨r, heq, hrlen, h16, h32, hzero, hbump, hdisc⟩ :=
      set_core_empty_props disc bump e
        ⟨SANDWICH_VALIDATORS_ACCOUNT_BASE_SIZE + INITIAL_BITMAP_SIZE_BYTES, fun _ => 0⟩
        (by decide) he
    refine ⟨r, ?_, by rw [hrlen]; decide, h16, h32, hzero, hbump, hdisc⟩
    simp only [set_sandwich_validators]
    rw [if_neg (by decide)]
    rw [show check_duplicates_and_validate [] (e * SLOTS_PER_EPOCH)
      (e * SLOTS_PER_EPOCH + SLOTS_PER_EPOCH) = none from rfl]
    rw [if_pos hl]
    exact heq

/-- Claim C5, witness: the amended creation/overwrite behaviour applied to
the concrete existing record `acctExisting` (epoch argument 5) and to a
fresh, empty account (epoch argument 3). -/
theorem C5_create_or_overwrite_witness :
    (∃ a, set_sandwich_validators (fun _ => 1) 7 5 [] acctExisting true = .ok a 0 ∧
      a.len = acctExisting.len ∧ rdU16 a 8 = 5 ∧ rdU32 a 10 = 9000 ∧
      (∀ j, 14 ≤ j → j < 9014 → a.byte j = 0) ∧ a.byte 9014 = 7) ∧
    (∃ a, set_sandwich_validators (fun _ => 2) 4 3 [] emptyAcct true = .ok a 0 ∧
      a.len = 9015 ∧ rdU16 a 8 = 3 ∧ rdU32 a 10 = 9000 ∧
      (∀ j, 14 ≤ j → j < 9014 → a.byte j = 0) ∧ a.byte 9014 = 4 ∧
      (∀ j, j < 8 → a.byte j = 2)) :=
  ⟨(C5_create_or_overwrite (fun _ => 1) 7 5 acctExisting (by decide)).1 (by decide),
   (C5_create_or_overwrite (fun _ => 2) 4 3 emptyAcct (by decide)).2 (by decide)⟩

/-- Claim C10 (confirmed): for every duplicate-free, in-window slot list of
at most 100 slots, `set_sandwich_validators` on a fresh account succeeds,
gates exactly the requested slots whose offset within the epoch is below
`INITIAL_BITMAP_SIZE_BYTES * 8 = 72000`, silently skips the rest (they are
reported as not gated, with no error), and the emitted event counts the full
requested list length. -/
theorem C10_skip_beyond_capacity (disc : Nat → Nat) (bump e : Nat) (slots : List Nat)
    (he : e < 65536) (hcount : slots.length ≤ 100) (hnd : slots.Nodup)
    (hb : ∀ s ∈ slots, e * SLOTS_PER_EPOCH ≤ s ∧ s < e * SLOTS_PER_EPOCH + SLOTS_PER_EPOCH) :
    ∃ a, set_sandwich_validators disc bump e slots emptyAcct true = .ok a slots.length ∧
      (∀ s ∈ slots, s - e * SLOTS_PER_EPOCH < 72000 → account_slot_gated a s = true) ∧
      (∀ s ∈ slots, 72000 ≤ s - e * SLOTS_PER_EPOCH → account_slot_gated a s = false) := by
  obtain ⟨r, heq, hrlen, h16, h32, hsets⟩ :=
    set_core_ok_props disc bump e slots
      ⟨SANDWICH_VALIDATORS_ACCOUNT_BASE_SIZE + INITIAL_BITMAP_SIZE_BYTES, fun _ => 0⟩
      (by decide) he
  refine ⟨r, ?_, ?_, ?_⟩
  · simp only [set_sandwich_validators]
    rw [if_neg (by simp only [MAX_SLOTS_PER_TRANSACTION]; omega)]
    rw [check_duplicates_complete slots _ _ hnd hb]
    rw [if_pos (by decide : emptyAcct.len = 0)]
    rw [heq]
    rw [Nat.mod_eq_of_lt (by omega : slots.length < 65536)]
  · intro s hs hoff
    simp only [account_slot_gated, is_slot_gated]
    rw [h16, h32]
    have hbs := hb s hs
    rw [if_neg (by simp only [SLOTS_PER_EPOCH] at hbs ⊢; omega)]
    rw [if_neg (by simp only [SLOTS_PER_EPOCH] at hbs ⊢; omega)]
    rw [if_neg (by omega)]
    exact hsets s hs hbs.1 hoff
  · intro s hs hoff
    simp only [account_slot_gated, is_slot_gated]
    rw [h16, h32]
    have hbs := hb s hs
    rw [if_neg (by simp only [SLOTS_PER_EPOCH] at hbs ⊢; omega)]
    rw [if_neg (by simp only [SLOTS_PER_EPOCH] at hbs ⊢; omega)]
    rw [if_pos (by omega)]

/-- Claim C10, witness: epoch 100 with one slot inside the initial capacity
(offset 100) and one beyond it (offset 80000). -/
theorem C10_skip_beyond_capacity_witness :
    ∃ a, set_sandwich_validators (fun _ => 0) 9 100 [43200100, 43280000] emptyAcct true
        = .ok a 2 ∧
      (∀ s ∈ [43200100, 43280000], s - 100 * SLOTS_PER_EPOCH < 72000 →
        account_slot_gated a s = true) ∧
      (∀ s ∈ [43200100, 43280000], 72000 ≤ s - 100 * SLOTS_PER_EPOCH →
        account_slot_gated a s = false) :=
  C10_skip_beyond_capacity (fun _ => 0) 9 100 [43200100, 43280000]
    (by decide) (by decide) (by decide) (by decide)

/-- Claim C9 (confirmed): a record just created by `set_sandwich_validators`
(9015 bytes, never expanded) cannot be mutated: every `update_sandwich_validator`
call on it that respects the per-transaction limits and is not a no-op fails
with `InvalidPda` — the handler computes the payload length as the account
length minus a 16-byte header, giving 8999 < `INITIAL_BITMAP_SIZE_BYTES` —
and leaves the account unchanged (the failure state is the input state). -/
theorem C9_fresh_record_rejected (disc : Nat → Nat) (bump e cnt : Nat)
    (gs ns rs : List Nat) (st : Acct)
    (he : e < 65536)
    (hset : set_sandwich_validators disc bump e gs emptyAcct true = .ok st cnt)
    (hns : ns.length ≤ 100) (hrs : rs.length ≤ 100) (hne : ¬(ns = [] ∧ rs = [])) :
    update_sandwich_validator e ns rs st true = .fail .InvalidPda st := by
  have hshape : st.len = 9015 ∧ rdU16 st 8 = e := by
    simp only [set_sandwich_validators] at hset
    by_cases hlen : gs.length > MAX_SLOTS_PER_TRANSACTION
    · rw [if_pos hlen] at hset
      exact absurd hset (by simp)
    · rw [if_neg hlen] at hset
      rcases hdup : check_duplicates_and_validate gs (e * SLOTS_PER_EPOCH)
          (e * SLOTS_PER_EPOCH + SLOTS_PER_EPOCH) with _ | er
      · rw [hdup] at hset
        rw [if_pos (by decide : emptyAcct.len = 0)] at hset
        obtain ⟨r, heq, hrlen, h16, h32, _⟩ :=
          set_core_ok_props disc bump e gs
            ⟨SANDWICH_VALIDATORS_ACCOUNT_BASE_SIZE + INITIAL_BITMAP_SIZE_BYTES, fun _ => 0⟩
            (by decide) he
        rw [heq] at hset
        injection hset with h1 h2
        subst h1
        exact ⟨hrlen, h16⟩
      · rw [hdup] at hset
        exact absurd hset (by simp)
  obtain ⟨hstlen, hstep⟩ := hshape
  simp only [update_sandwich_validator]
  rw [if_neg (by simp only [MAX_SLOTS_PER_TRANSACTION]; omega)]
  rw [if_neg (by simp only [MAX_SLOTS_PER_TRANSACTION]; omega)]
  rw [if_neg hne]
  rw [if_neg (by simp [hstlen])]
  rw [if_neg (by omega)]
  rw [if_neg (by simp [hstep])]
  rw [if_pos (by
    simp only [INITIAL_BITMAP_SIZE_BYTES, FULL_BITMAP_SIZE_BYTES]
    omega)]

/-- Claim C9, witness: create a record for epoch 0 and try to gate slot 0. -/
theorem C9_fresh_record_rejected_witness :
    update_sandwich_validator 0 [0] []
      ((set_sandwich_validators (fun _ => 0) 1 0 [] emptyAcct true).stateD emptyAcct) true
      = .fail .InvalidPda
        ((set_sandwich_validators (fun _ => 0) 1 0 [] emptyAcct true).stateD emptyAcct) :=
  C9_fresh_record_rejected (fun _ => 0) 1 0
    ((set_sandwich_validators (fun _ => 0) 1 0 [] emptyAcct true).cntD 0)
    [] [0] [] _ (by decide) (by rfl) (by decide) (by decide) (by decide)

/-- Claim C3, counterexample: on an account with slots 0 and 8 both gated,
`update_sandwich_validator(gate=[8], ungate=[0])` fails with `DuplicateSlots`
(slot 8 is already gated), yet the ungate of slot 0 has already been applied
to the account buffer: byte 16 went from 1 to 0.  The mutation is therefore
not all-or-nothing at the handler level. -/
theorem C3_cex_partial_ungate_persists :
    (update_sandwich_validator 0 [8] [0] acctTwoGated true).errOf = some .DuplicateSlots ∧
    ((update_sandwich_validator 0 [8] [0] acctTwoGated true).stateD acctTwoGated).byte 16 = 0 ∧
    acctTwoGated.byte 16 = 1 := by
  decide

/-- Claim C3, amended: every error return of `update_sandwich_validator`
leaves the account length unchanged and writes no gate bit — any byte that
differs from its pre-call value is a byte targeted by a slot of the ungate
list (validation-phase errors change nothing; only a gate-phase
`DuplicateSlots` abort can leave the already-applied ungates behind, and
transaction-level rollback is then the platform's, not the handler's). -/
theorem C3_error_writes_only_ungate_bytes (e : Nat) (ns rs : List Nat) (st : Acct)
    (err : GatekeeperError) (a2 : Acct)
    (h : update_sandwich_validator e ns rs st true = .fail err a2) :
    a2.len = st.len ∧
    ∀ j, a2.byte j ≠ st.byte j → ∃ s, s ∈ rs ∧ j = 16 + (s - e * SLOTS_PER_EPOCH) / 8 := by
  simp only [update_sandwich_validator] at h
  by_cases h1 : ns.length > MAX_SLOTS_PER_TRANSACTION
  · rw [if_pos h1] at h
    injection h with _ he2
    subst he2
    exact ⟨rfl, fun j hj => absurd rfl hj⟩
  · rw [if_neg h1] at h
    by_cases h2 : rs.length > MAX_SLOTS_PER_TRANSACTION
    · rw [if_pos h2] at h
      injection h with _ he2
      subst he2
      exact ⟨rfl, fun j hj => absurd rfl hj⟩
    · rw [if_neg h2] at h
      by_cases h3 : ns = [] ∧ rs = []
      · rw [if_pos h3] at h
        exact absurd h (by simp)
      · rw [if_neg h3] at h
        by_cases h4 : st.len = 0 ∨ true = false
        · rw [if_pos h4] at h
          injection h with _ he2
          subst he2
          exact ⟨rfl, fun j hj => absurd rfl hj⟩
        · rw [if_neg h4] at h
          by_cases h5 : st.len < 10
          · rw [if_pos h5] at h
            exact absurd h (by simp)
          · rw [if_neg h5] at h
            by_cases h6 : rdU16 st 8 ≠ e
            · rw [if_pos h6] at h
              injection h with _ he2
              subst he2
              exact ⟨rfl, fun j hj => absurd rfl hj⟩
            · rw [if_neg h6] at h
              by_cases h7 : st.len - 16 < INITIAL_BITMAP_SIZE_BYTES ∨
                  st.len - 16 > FULL_BITMAP_SIZE_BYTES
              · rw [if_pos h7] at h
                injection h with _ he2
                subst he2
                exact ⟨rfl, fun j hj => absurd rfl hj⟩
              · rw [if_neg h7] at h
                push_neg at h7
                have hlen16 : 16 + (st.len - 16) = st.len := by
                  simp only [INITIAL_BITMAP_SIZE_BYTES] at h7
                  omega
                rcases hdup1 : check_duplicates_and_validate rs (e * SLOTS_PER_EPOCH)
                    (e * SLOTS_PER_EPOCH + (st.len - 16) * 8) with _ | er1
                · rw [hdup1] at h
                  rcases hdup2 : check_duplicates_and_validate ns (e * SLOTS_PER_EPOCH)
                      (e * SLOTS_PER_EPOCH + (st.len - 16) * 8) with _ | er2
                  · rw [hdup2] at h
                    have hbrs := check_duplicates_sound rs _ _ hdup1
                    obtain ⟨a1, n1, hrem, hlen1, hdiff1⟩ :=
                      remove_slots_loop_ok rs st (e * SLOTS_PER_EPOCH) (st.len - 16) 0 hbrs
                        (by omega)
                    rw [hrem] at h
                    dsimp only at h
                    by_cases hany : ns.any (fun s =>
                        is_slot_gated_direct a1 s (e * SLOTS_PER_EPOCH) (st.len - 16)) = true
                    · rw [if_pos hany] at h
                      injection h with _ he2
                      subst he2
                      exact ⟨hlen1, hdiff1⟩
                    · rw [if_neg hany] at h
                      have hbns := check_duplicates_sound ns _ _ hdup2
                      obtain ⟨a3, m, hadd⟩ :=
                        add_slots_loop_ok ns a1 (e * SLOTS_PER_EPOCH) (st.len - 16) 0 hbns
                          (by omega)
                      rw [hadd] at h
                      exact absurd h (by simp)
                  · rw [hdup2] at h
                    injection h with _ he2
                    subst he2
                    exact ⟨rfl, fun j hj => absurd rfl hj⟩
                · rw [hdup1] at h
                  injection h with _ he2
                  subst he2
                  exact ⟨rfl, fun j hj => absurd rfl hj⟩

/-- Claim C3, witness: the amended statement applied to the concrete
`DuplicateSlots` abort on `acctTwoGated` with ungate list `[0]`. -/
theorem C3_error_writes_only_ungate_bytes_witness :
    ((update_sandwich_validator 0 [8] [0] acctTwoGated true).stateD acctTwoGated).len
        = acctTwoGated.len ∧
    ∀ j, ((update_sandwich_validator 0 [8] [0] acctTwoGated true).stateD acctTwoGated).byte j
        ≠ acctTwoGated.byte j →
      ∃ s, s ∈ [0] ∧ j = 16 + (s - 0 * SLOTS_PER_EPOCH) / 8 :=
  C3_error_writes_only_ungate_bytes 0 [8] [0] acctTwoGated .DuplicateSlots
    ((update_sandwich_validator 0 [8] [0] acctTwoGated true).stateD acctTwoGated) (by rfl)

theorem resizeZero_len (a : Acct) (n : Nat) : (resizeZero a n).len = n := rfl

theorem rdU32_10_wrByte_high (a : Acct) (p v : Nat) (hp : 13 < p) :
    rdU32 (wrByte a p v) 10 = rdU32 a 10 :=
  rdU32_congr10 _ _ (byte_wrByte_ne _ _ _ _ (by omega)) (byte_wrByte_ne _ _ _ _ (by omega))
    (byte_wrByte_ne _ _ _ _ (by omega)) (byte_wrByte_ne _ _ _ _ (by omega))

theorem rdU32_10_fillZero_high (a : Acct) (s e : Nat) (hs : 13 < s) :
    rdU32 (fillZero a s e) 10 = rdU32 a 10 :=
  rdU32_congr10 _ _ (byte_fillZero_out _ _ _ _ (by omega)) (byte_fillZero_out _ _ _ _ (by omega))
    (byte_fillZero_out _ _ _ _ (by omega)) (byte_fillZero_out _ _ _ _ (by omega))

/-- Claim C7 (confirmed): once `expand_sandwich_validators` has reached the
full target size of 54015 bytes, every further call succeeds as a no-op that
leaves the account size and every bitmap byte unchanged, only reconciling the
stored payload-length field to 54000; and after every successful call the
invariant `stored_payload_length * 8 ≤ SLOTS_PER_EPOCH` holds (the stored
length never exceeds `FULL_BITMAP_SIZE_BYTES = 54000`) and the account size
never shrinks. -/
theorem C7_expand_idempotent_bounded (st : Acct) :
    (54015 ≤ st.len →
      ∃ a2, expand_sandwich_validators st true = .ok a2 ∧ a2.len = st.len ∧
        (∀ j, j < 10 ∨ 14 ≤ j → a2.byte j = st.byte j) ∧
        rdU32 a2 10 = FULL_BITMAP_SIZE_BYTES) ∧
    (∀ a2, expand_sandwich_validators st true = .ok a2 →
      st.len ≤ a2.len ∧ rdU32 a2 10 * 8 ≤ SLOTS_PER_EPOCH) := by
  constructor
  · intro hl
    simp only [expand_sandwich_validators]
    rw [if_neg (by push_neg; exact ⟨by omega, by simp⟩)]
    rw [if_pos (by
      simp only [SANDWICH_VALIDATORS_ACCOUNT_BASE_SIZE, FULL_BITMAP_SIZE_BYTES]
      omega)]
    by_cases hf : rdU32 st 10 ≠ FULL_BITMAP_SIZE_BYTES
    · rw [if_pos hf]
      refine ⟨wrU32 st 10 FULL_BITMAP_SIZE_BYTES, rfl, wrU32_len _ _ _, ?_, ?_⟩
      · intro j hj
        exact byte_wrU32_out _ _ _ _ (by omega) (by omega) (by omega) (by omega)
      · exact rdU32_wrU32_same10 _ _ (by decide)
    · rw [if_neg hf]
      push_neg at hf
      exact ⟨st, rfl, rfl, fun _ _ => rfl, hf⟩
  · intro a2 h
    simp only [expand_sandwich_validators] at h
    split at h
    · simp at h
    · next h0 =>
      have hne0 : st.len ≠ 0 := fun hh => h0 (Or.inl hh)
      split at h
      · next hneed =>
        split at h
        · next hf =>
          injection h with h1
          subst h1
          refine ⟨le_of_eq (wrU32_len _ _ _).symm, ?_⟩
          rw [rdU32_wrU32_same10 _ _ (by decide)]
          decide
        · next hf =>
          injection h with h1
          subst h1
          push_neg at hf
          rw [hf]
          exact ⟨le_refl _, by decide⟩
      · next hneed =>
        have hns : 15 ≤ st.len + min (SANDWICH_VALIDATORS_ACCOUNT_BASE_SIZE +
            FULL_BITMAP_SIZE_BYTES - st.len) MAX_REALLOC_SIZE := by
          have hn := hneed
          simp only [SANDWICH_VALIDATORS_ACCOUNT_BASE_SIZE, FULL_BITMAP_SIZE_BYTES,
            MAX_REALLOC_SIZE] at hn ⊢
          omega
        split at h
        · next hbe =>
          split at h
          · simp at h
          · next hlt =>
            split at h
            · next hbp =>
              injection h with h1
              subst h1
              constructor
              · simp only [wrByte_len, fillZero_len, wrU32_len, resizeZero_len]
                omega
              · rw [rdU32_10_wrByte_high _ _ _ (by omega)]
                rw [rdU32_10_fillZero_high _ _ _ (by omega)]
                rw [rdU32_wrU32_same10 _ _ (by
                  simp only [FULL_BITMAP_SIZE_BYTES]
                  omega)]
                simp only [FULL_BITMAP_SIZE_BYTES, SLOTS_PER_EPOCH]
                omega
            · next hbp =>
              injection h with h1
              subst h1
              constructor
              · simp only [fillZero_len, wrU32_len, resizeZero_len]
                omega
              · rw [rdU32_10_fillZero_high _ _ _ (by omega)]
                rw [rdU32_wrU32_same10 _ _ (by
                  simp only [FULL_BITMAP_SIZE_BYTES]
                  omega)]
                simp only [FULL_BITMAP_SIZE_BYTES, SLOTS_PER_EPOCH]
                omega
        · next hbe =>
          injection h with h1
          subst h1
          constructor
          · simp only [wrU32_len, resizeZero_len]
            omega
          · rw [rdU32_wrU32_same10 _ _ (by
              simp only [FULL_BITMAP_SIZE_BYTES]
              omega)]
            simp only [FULL_BITMAP_SIZE_BYTES, SLOTS_PER_EPOCH]
            omega


/-- Claim C7, witness: the no-op clause applied to the concrete full-size
account `acctFull`, and the invariant clause applied to the successful first
expansion of `acctInitial`. -/
theorem C7_expand_idempotent_bounded_witness :
    (∃ a2, expand_sandwich_validators acctFull true = .ok a2 ∧ a2.len = acctFull.len ∧
      (∀ j, j < 10 ∨ 14 ≤ j → a2.byte j = acctFull.byte j) ∧
      rdU32 a2 10 = FULL_BITMAP_SIZE_BYTES) ∧
    (acctInitial.len ≤ ((expand_sandwich_validators acctInitial true).stateD acctInitial).len ∧
      rdU32 ((expand_sandwich_validators acctInitial true).stateD acctInitial) 10 * 8
        ≤ SLOTS_PER_EPOCH) :=
  ⟨(C7_expand_idempotent_bounded acctFull).1 (by decide),
   (C7_expand_idempotent_bounded acctInitial).2
     ((expand_sandwich_validators acctInitial true).stateD acctInitial) (by rfl)⟩
